import Mathlib

/-!
# Verification of the process-mining pipeline

A shallow embedding of `process_mining.py`: the SQL event-log query
(unpivot of eight date columns, four `LEFT JOIN`s, `ORDER BY OrderID,
Timestamp`), the DFG discovery contract, the analytics step, and the
fallback visualization's line-weight formula.

Scalar cell values are modelled as `Nat`; SQL `NULL` is `Option.none`.
`ORDER BY` is modelled as a stable merge sort on the key
`(OrderID, Timestamp)`.
-/

namespace ProcessMining

/-- A row of the `ordertable` sheet, with the columns the query reads. -/
structure OrderRow where
  OrderID : Nat
  CustomerID : Option Nat
  OrderDate : Option Nat
  PickedDate : Option Nat
  PackedDate : Option Nat
  OrderDetails : Option Nat
  OrderTotal : Option Nat
  Warehouse : Option Nat
deriving Repr, DecidableEq

/-- A row of the `customertable` sheet. -/
structure CustomerRow where
  CustomerID : Nat
  ShippingAddress : Option Nat
  SignUpDate : Option Nat
  HasLoyaltyCard : Option Nat
deriving Repr, DecidableEq

/-- A row of the `shippingtable` sheet. -/
structure ShippingRow where
  OrderID : Nat
  DeliveredDate : Option Nat
  PickUpDate : Option Nat
  DeliveryCompany : Option Nat
  ShipmentID : Option Nat
deriving Repr, DecidableEq

/-- A row of the `supporttable` sheet. -/
structure SupportRow where
  OrderID : Nat
  TicketReceived : Option Nat
  TicketResolved : Option Nat
  RefundIssued : Option Nat
  TicketID : Option Nat
  SupportTeam : Option Nat
  IssueCategory : Option Nat
  CustomerNPS : Option Nat
deriving Repr, DecidableEq

/-- The four source tables loaded into SQLite from the Excel sheets. -/
structure Tables where
  ordertable : List OrderRow
  customertable : List CustomerRow
  shippingtable : List ShippingRow
  supporttable : List SupportRow
deriving Repr, DecidableEq

/-- One row of the `unpivoted_events` CTE:
`SELECT OrderID, <label> as Activities, <col> as Timestamp, <src> as source_type`. -/
structure UnpivotedEvent where
  OrderID : Nat
  Activities : String
  Timestamp : Nat
  source_type : String
deriving Repr, DecidableEq

/-- One branch of the CTE:
`SELECT OrderID, label, col, src FROM table WHERE col IS NOT NULL`. -/
def unpivotCol {ρ : Type} (getId : ρ → Nat) (getCol : ρ → Option Nat)
    (label src : String) (rows : List ρ) : List UnpivotedEvent :=
  rows.filterMap fun r =>
    (getCol r).map fun ts =>
      { OrderID := getId r, Activities := label, Timestamp := ts, source_type := src }

/-- The eight `UNION ALL` branches of the `unpivoted_events` CTE, in query order. -/
def unpivotedEvents (t : Tables) : List UnpivotedEvent :=
  unpivotCol OrderRow.OrderID OrderRow.OrderDate "OrderDate" "order" t.ordertable
    ++ unpivotCol OrderRow.OrderID OrderRow.PickedDate "PickedDate" "order" t.ordertable
    ++ unpivotCol OrderRow.OrderID OrderRow.PackedDate "PackedDate" "order" t.ordertable
    ++ unpivotCol ShippingRow.OrderID ShippingRow.DeliveredDate "DeliveredDate" "shipping"
      t.shippingtable
    ++ unpivotCol ShippingRow.OrderID ShippingRow.PickUpDate "PickUpDate" "shipping"
      t.shippingtable
    ++ unpivotCol SupportRow.OrderID SupportRow.TicketReceived "TicketReceived" "support"
      t.supporttable
    ++ unpivotCol SupportRow.OrderID SupportRow.TicketResolved "TicketResolved" "support"
      t.supporttable
    ++ unpivotCol SupportRow.OrderID SupportRow.RefundIssued "RefundIssued" "support"
      t.supporttable

/-- Output of one left row of a `LEFT JOIN`: one pair per matching right row,
or a single pair with `none` when no right row matches. -/
def joinRow {α β : Type} (a : α) : List β → List (α × Option β)
  | [] => [(a, none)]
  | ms => ms.map fun b => (a, some b)

/-- SQL `LEFT JOIN`: each left row is kept once per matching right row, or once
with `none` when no right row matches. -/
def leftJoin {α β : Type} (rightMatches : α → List β) (xs : List α) : List (α × Option β) :=
  xs.flatMap fun a => joinRow a (rightMatches a)

/-- The query's `LEFT JOIN ordertable o ON ue.OrderID = o.OrderID`. -/
def joinOrder (t : Tables) (ues : List UnpivotedEvent) :
    List (UnpivotedEvent × Option OrderRow) :=
  leftJoin (fun ue => t.ordertable.filter fun o => o.OrderID == ue.OrderID) ues

/-- The rows of `customertable` matching `o.CustomerID = c.CustomerID`; a SQL
`NULL` key (no order row, or a null `CustomerID`) matches nothing. -/
def customerMatches (t : Tables) : Option OrderRow → List CustomerRow
  | none => []
  | some o =>
    match o.CustomerID with
    | none => []
    | some cid => t.customertable.filter fun c => c.CustomerID == cid

/-- The query's `LEFT JOIN customertable c ON o.CustomerID = c.CustomerID`. -/
def joinCustomer (t : Tables) (xs : List (UnpivotedEvent × Option OrderRow)) :
    List ((UnpivotedEvent × Option OrderRow) × Option CustomerRow) :=
  leftJoin (fun p => customerMatches t p.2) xs

/-- The query's `LEFT JOIN shippingtable s ON ue.OrderID = s.OrderID`. -/
def joinShipping (t : Tables)
    (xs : List ((UnpivotedEvent × Option OrderRow) × Option CustomerRow)) :
    List (((UnpivotedEvent × Option OrderRow) × Option CustomerRow) × Option ShippingRow) :=
  leftJoin (fun p => t.shippingtable.filter fun s => s.OrderID == p.1.1.OrderID) xs

/-- The query's `LEFT JOIN supporttable sup ON ue.OrderID = sup.OrderID`. -/
def joinSupport (t : Tables)
    (xs : List (((UnpivotedEvent × Option OrderRow) × Option CustomerRow) × Option ShippingRow)) :
    List ((((UnpivotedEvent × Option OrderRow) × Option CustomerRow) × Option ShippingRow)
      × Option SupportRow) :=
  leftJoin (fun p => t.supporttable.filter fun sup => sup.OrderID == p.1.1.1.OrderID) xs

/-- One row of the enriched event log, with the sixteen selected columns. -/
structure EnrichedRow where
  OrderID : Nat
  Activities : String
  Timestamp : Nat
  CustomerID : Option Nat
  ShippingAddress : Option Nat
  OrderDetails : Option Nat
  OrderTotal : Option Nat
  Warehouse : Option Nat
  DeliveryCompany : Option Nat
  ShipmentID : Option Nat
  TicketID : Option Nat
  SupportTeam : Option Nat
  IssueCategory : Option Nat
  CustomerNPS : Option Nat
  SignUpDate : Option Nat
  HasLoyaltyCard : Option Nat
deriving Repr, DecidableEq

/-- The query's `SELECT` list applied to one fully joined row. -/
def assembleRow
    (p : (((UnpivotedEvent × Option OrderRow) × Option CustomerRow) × Option ShippingRow)
      × Option SupportRow) : EnrichedRow :=
  { OrderID := p.1.1.1.1.OrderID
    Activities := p.1.1.1.1.Activities
    Timestamp := p.1.1.1.1.Timestamp
    CustomerID := (p.1.1.2).map CustomerRow.CustomerID
    ShippingAddress := (p.1.1.2).bind CustomerRow.ShippingAddress
    OrderDetails := (p.1.1.1.2).bind OrderRow.OrderDetails
    OrderTotal := (p.1.1.1.2).bind OrderRow.OrderTotal
    Warehouse := (p.1.1.1.2).bind OrderRow.Warehouse
    DeliveryCompany := (p.1.2).bind ShippingRow.DeliveryCompany
    ShipmentID := (p.1.2).bind ShippingRow.ShipmentID
    TicketID := p.2.bind SupportRow.TicketID
    SupportTeam := p.2.bind SupportRow.SupportTeam
    IssueCategory := p.2.bind SupportRow.IssueCategory
    CustomerNPS := p.2.bind SupportRow.CustomerNPS
    SignUpDate := (p.1.1.2).bind CustomerRow.SignUpDate
    HasLoyaltyCard := (p.1.1.2).bind CustomerRow.HasLoyaltyCard }

/-- The enriched event stream before `ORDER BY`, in join-generation order. -/
def joinedEvents (t : Tables) : List EnrichedRow :=
  (joinSupport t (joinShipping t (joinCustomer t (joinOrder t (unpivotedEvents t))))).map
    assembleRow

/-- The `ORDER BY ue.OrderID, ue.Timestamp` comparison. -/
def sqlLe (a b : EnrichedRow) : Bool :=
  decide (a.OrderID < b.OrderID)
    || (decide (a.OrderID = b.OrderID) && decide (a.Timestamp ≤ b.Timestamp))

/-- The full `event_log_query`: unpivot, enrich, and sort stably by
`(OrderID, Timestamp)`. -/
def eventLogQuery (t : Tables) : List EnrichedRow :=
  (joinedEvents t).mergeSort sqlLe

/-! ## Directly-follows graph discovery

The script hands the sorted event log to the external library call
`pm4py.discover_dfg`; that algorithm is not part of this repository's
source. -/

/-- The event log as handed to discovery: one `(case id, activity)` pair per
enriched row, in log order. -/
def pm4pyLog (t : Tables) : List (Nat × String) :=
  (eventLogQuery t).map fun r => (r.OrderID, r.Activities)

/-- The distinct case ids of a log. -/
def caseIds (log : List (Nat × String)) : List Nat :=
  (log.map Prod.fst).dedup

/-- The activity sequence (trace) of one case, in log order. -/
def caseTrace (log : List (Nat × String)) (c : Nat) : List String :=
  (log.filter fun e => e.1 == c).map Prod.snd

/-- Consecutive pairs `(e_i, e_{i+1})` of a trace. -/
def consecutivePairs : List String → List (String × String)
  | a :: b :: rest => (a, b) :: consecutivePairs (b :: rest)
  | _ => []

/-- A directly-follows graph: edge, start-activity and end-activity counts. -/
structure DFG where
  edges : String × String → Nat
  start_activities : String → Nat
  end_activities : String → Nat

/-- Increment one entry of a count map. -/
def bump {κ : Type} [DecidableEq κ] (m : κ → Nat) (k : κ) : κ → Nat :=
  fun x => if x = k then m x + 1 else m x

/-- Add one count for every pair in the list. -/
def addPairs (m : String × String → Nat) : List (String × String) → (String × String → Nat)
  | [] => m
  | p :: ps => addPairs (bump m p) ps

/-- Modelled from the spec: the per-case accumulation step of the DFG
discoverer (the repository delegates it to the external `pm4py.discover_dfg`,
whose code is not in the repository). Per the contract, a nonempty trace adds
one to the start count of its first activity, one to the end count of its last
activity, and one edge count per consecutive pair; an empty trace contributes
nothing. -/
def addTrace (d : DFG) : List String → DFG
  | [] => d
  | e0 :: rest =>
    { edges := addPairs d.edges (consecutivePairs (e0 :: rest))
      start_activities := bump d.start_activities e0
      end_activities := bump d.end_activities (rest.getLastD e0) }

/-- The all-zero DFG. -/
def emptyDFG : DFG :=
  { edges := fun _ => 0, start_activities := fun _ => 0, end_activities := fun _ => 0 }

/-- Modelled from the spec: DFG discovery scans the log case by case and
accumulates counts (standing in for the external `pm4py.discover_dfg`). -/
def discoverDfg (log : List (Nat × String)) : DFG :=
  (caseIds log).foldl (fun d c => addTrace d (caseTrace log c)) emptyDFG

/-- All directly-follows pairs of a log, one occurrence per observation; its
deduplication is the support of the `edges` map. -/
def allPairs (log : List (Nat × String)) : List (String × String) :=
  (caseIds log).flatMap fun c => consecutivePairs (caseTrace log c)

/-- The sum `sum(edges.values())`: the edge counts summed over the support. -/
def sumEdgeValues (log : List (Nat × String)) : Nat :=
  (((allPairs log).dedup).map (discoverDfg log).edges).sum

/-- The number of cases having at least one event. -/
def casesWithEvents (log : List (Nat × String)) : Nat :=
  ((caseIds log).filter fun c => !(caseTrace log c).isEmpty).length

/-! ## Analytics step -/

/-- How the analytics step can fail. `zeroDivisionError` models the unhandled
Python `ZeroDivisionError` that `total_events / total_cases` raises when
`total_cases` is zero; `preconditionViolation` is the structured
kind-plus-context outcome that the specification's words describe (named from
the spec, for comparison with what the code produces). -/
inductive AnalyticsError where
  | zeroDivisionError : AnalyticsError
  | preconditionViolation : String → String → AnalyticsError
deriving Repr, DecidableEq

/-- The distinct case count `event_log['OrderID'].nunique()`. -/
def total_cases (log : List EnrichedRow) : Nat :=
  ((log.map EnrichedRow.OrderID).dedup).length

/-- The total event count `len(event_log)`. -/
def total_events (log : List EnrichedRow) : Nat :=
  log.length

/-- The average `avg_events_per_case = total_events / total_cases`: Python true division,
which raises `ZeroDivisionError` when the divisor is zero. -/
def avg_events_per_case (log : List EnrichedRow) : Except AnalyticsError ℚ :=
  if total_cases log = 0 then Except.error AnalyticsError.zeroDivisionError
  else Except.ok ((total_events log : ℚ) / (total_cases log : ℚ))

/-! ## Fallback visualization -/

/-- The arrow line weight `lw=max(1, frequency/4)` of
`create_fallback_visualization`. -/
def lineWeight (frequency : Nat) : ℚ :=
  max 1 ((frequency : ℚ) / 4)

/-! ## Schema preparation

SQLite compiles (`prepare`s) the whole statement before returning any row;
name resolution happens there, so a column missing from a table's schema
aborts the query before execution. -/

/-- The column names of the four tables as loaded from the spreadsheet. -/
structure DBSchema where
  ordertable : List String
  customertable : List String
  shippingtable : List String
  supporttable : List String
deriving Repr, DecidableEq

/-- The `ordertable` columns the query text references. -/
def orderRefs : List String :=
  ["OrderID", "OrderDate", "PickedDate", "PackedDate", "CustomerID", "OrderDetails",
    "OrderTotal", "Warehouse"]

/-- The `customertable` columns the query text references. -/
def customerRefs : List String :=
  ["CustomerID", "ShippingAddress", "SignUpDate", "HasLoyaltyCard"]

/-- The `shippingtable` columns the query text references. -/
def shippingRefs : List String :=
  ["OrderID", "DeliveredDate", "PickUpDate", "DeliveryCompany", "ShipmentID"]

/-- The `supporttable` columns the query text references. -/
def supportRefs : List String :=
  ["OrderID", "TicketReceived", "TicketResolved", "RefundIssued", "TicketID", "SupportTeam",
    "IssueCategory", "CustomerNPS"]

/-- SQLite's prepare-time name resolution: every referenced column must exist
in its table's schema. -/
def prepareOk (s : DBSchema) : Bool :=
  orderRefs.all (fun c => s.ordertable.contains c)
    && customerRefs.all (fun c => s.customertable.contains c)
    && shippingRefs.all (fun c => s.shippingtable.contains c)
    && supportRefs.all (fun c => s.supporttable.contains c)

/-- The call `pd.read_sql_query(event_log_query, conn)`: SQLite prepares the statement
first and raises `no such column` before producing any row when a referenced
column is absent; otherwise the query runs to completion. -/
def runEventLogQuery (s : DBSchema) (t : Tables) : Except String (List EnrichedRow) :=
  if prepareOk s then Except.ok (eventLogQuery t) else Except.error "no such column"

/-! ## Concrete instances used to exercise the theorems -/

/-- Tables with one order event and two shipping rows for the same order:
a one-to-many satellite relation. -/
def fanoutTables : Tables :=
  { ordertable := [⟨1, none, some 10, none, none, none, none, none⟩]
    customertable := []
    shippingtable := [⟨1, none, none, some 7, some 100⟩, ⟨1, none, none, some 8, some 101⟩]
    supporttable := [] }

/-- Tables whose one order row yields two events with equal timestamps. -/
def tieTables : Tables :=
  { ordertable := [⟨1, none, some 5, some 5, none, none, none, none⟩]
    customertable := []
    shippingtable := []
    supporttable := [] }

/-- The first enriched row `tieTables` produces (from the `OrderDate` branch). -/
def rowA : EnrichedRow :=
  ⟨1, "OrderDate", 5, none, none, none, none, none, none, none, none, none, none, none, none,
    none⟩

/-- The second enriched row `tieTables` produces (from the `PickedDate` branch). -/
def rowB : EnrichedRow :=
  ⟨1, "PickedDate", 5, none, none, none, none, none, none, none, none, none, none, none, none,
    none⟩

/-- A one-row event log. -/
def sampleLog : List EnrichedRow :=
  [rowA]

/-- A schema in which the declared column `PickedDate` is absent from
`ordertable`. -/
def missingSchema : DBSchema :=
  { ordertable := ["OrderID", "OrderDate", "PackedDate", "CustomerID", "OrderDetails",
      "OrderTotal", "Warehouse"]
    customertable := customerRefs
    shippingtable := shippingRefs
    supporttable := supportRefs }

/-- Empty source tables. -/
def emptyTables : Tables :=
  { ordertable := [], customertable := [], shippingtable := [], supporttable := [] }

/-- Tables for the key-uniqueness scenario: one order with two events, a
matching shipping row, and no support or customer rows. -/
def uniqueTables : Tables :=
  { ordertable := [⟨1, none, some 5, some 6, none, none, none, none⟩]
    customertable := []
    shippingtable := [⟨1, none, none, some 7, some 100⟩]
    supporttable := [] }

/-! ## Theorems -/

theorem sqlLe_trans (a b c : EnrichedRow) (hab : sqlLe a b) (hbc : sqlLe b c) : sqlLe a c := by
  simp only [sqlLe, Bool.or_eq_true, Bool.and_eq_true, decide_eq_true_eq] at *
  omega

theorem sqlLe_total (a b : EnrichedRow) : sqlLe a b || sqlLe b a := by
  simp only [sqlLe, Bool.or_eq_true, Bool.and_eq_true, decide_eq_true_eq]
  omega

theorem unpivotCol_eq_filter_map {ρ : Type} (getId : ρ → Nat) (getCol : ρ → Option Nat)
    (label src : String) (rows : List ρ) :
    unpivotCol getId getCol label src rows =
      (rows.filter fun r => (getCol r).isSome).map fun r =>
        { OrderID := getId r, Activities := label, Timestamp := (getCol r).getD 0,
          source_type := src } := by
  induction rows with
  | nil => rfl
  | cons r rows ih =>
    simp only [unpivotCol, List.filterMap_cons, List.filter_cons] at ih ⊢
    cases h : getCol r with
    | none => simp [h, ih]
    | some ts => simp [h, ih]

theorem length_unpivotCol {ρ : Type} (getId : ρ → Nat) (getCol : ρ → Option Nat)
    (label src : String) (rows : List ρ) :
    (unpivotCol getId getCol label src rows).length
      = rows.countP fun r => (getCol r).isSome := by
  rw [unpivotCol_eq_filter_map, List.length_map, List.countP_eq_length_filter]

theorem activities_of_mem_unpivotCol {ρ : Type} {getId : ρ → Nat} {getCol : ρ → Option Nat}
    {label src : String} {rows : List ρ} {r : UnpivotedEvent}
    (h : r ∈ unpivotCol getId getCol label src rows) : r.Activities = label := by
  obtain ⟨a, _, heq⟩ := List.mem_filterMap.mp h
  cases hc : getCol a with
  | none => rw [hc] at heq; simp at heq
  | some ts =>
    rw [hc] at heq
    simp only [Option.map_some', Option.some.injEq] at heq
    subst heq
    rfl

/-- C6: the unpivot produces exactly one event record per (row, declared
column) pair whose value is non-null — each branch equals the non-null-filtered
rows mapped to a record carrying the branch's fixed activity label — so the
total record count is the sum over the tables of the per-column non-null row
counts, and every record's activity label is one of the eight declared labels;
a row whose value for a declared column is null contributes no record for that
column and raises no error. -/
theorem C6_unpivot_characterization (t : Tables) :
    unpivotedEvents t =
        ((t.ordertable.filter fun o => o.OrderDate.isSome).map fun o =>
            { OrderID := o.OrderID, Activities := "OrderDate", Timestamp := o.OrderDate.getD 0,
              source_type := "order" })
          ++ ((t.ordertable.filter fun o => o.PickedDate.isSome).map fun o =>
            { OrderID := o.OrderID, Activities := "PickedDate", Timestamp := o.PickedDate.getD 0,
              source_type := "order" })
          ++ ((t.ordertable.filter fun o => o.PackedDate.isSome).map fun o =>
            { OrderID := o.OrderID, Activities := "PackedDate", Timestamp := o.PackedDate.getD 0,
              source_type := "order" })
          ++ ((t.shippingtable.filter fun s => s.DeliveredDate.isSome).map fun s =>
            { OrderID := s.OrderID, Activities := "DeliveredDate",
              Timestamp := s.DeliveredDate.getD 0, source_type := "shipping" })
          ++ ((t.shippingtable.filter fun s => s.PickUpDate.isSome).map fun s =>
            { OrderID := s.OrderID, Activities := "PickUpDate", Timestamp := s.PickUpDate.getD 0,
              source_type := "shipping" })
          ++ ((t.supporttable.filter fun u => u.TicketReceived.isSome).map fun u =>
            { OrderID := u.OrderID, Activities := "TicketReceived",
              Timestamp := u.TicketReceived.getD 0, source_type := "support" })
          ++ ((t.supporttable.filter fun u => u.TicketResolved.isSome).map fun u =>
            { OrderID := u.OrderID, Activities := "TicketResolved",
              Timestamp := u.TicketResolved.getD 0, source_type := "support" })
          ++ ((t.supporttable.filter fun u => u.RefundIssued.isSome).map fun u =>
            { OrderID := u.OrderID, Activities := "RefundIssued",
              Timestamp := u.RefundIssued.getD 0, source_type := "support" })
      ∧ (unpivotedEvents t).length =
          (t.ordertable.countP fun o => o.OrderDate.isSome)
            + (t.ordertable.countP fun o => o.PickedDate.isSome)
            + (t.ordertable.countP fun o => o.PackedDate.isSome)
            + (t.shippingtable.countP fun s => s.DeliveredDate.isSome)
            + (t.shippingtable.countP fun s => s.PickUpDate.isSome)
            + (t.supporttable.countP fun u => u.TicketReceived.isSome)
            + (t.supporttable.countP fun u => u.TicketResolved.isSome)
            + (t.supporttable.countP fun u => u.RefundIssued.isSome)
      ∧ ∀ r ∈ unpivotedEvents t,
          r.Activities ∈ (["OrderDate", "PickedDate", "PackedDate", "DeliveredDate",
            "PickUpDate", "TicketReceived", "TicketResolved", "RefundIssued"] : List String) := by
  refine ⟨?_, ?_, ?_⟩
  · simp only [unpivotedEvents, unpivotCol_eq_filter_map, List.append_assoc]
  · simp only [unpivotedEvents, List.length_append, length_unpivotCol]
  · intro r hr
    simp only [unpivotedEvents, List.mem_append] at hr
    rcases hr with ((((((h | h) | h) | h) | h) | h) | h) | h <;>
      simp [activities_of_mem_unpivotCol h]

/-- C9: in the fallback layout, the line weight max(1, frequency/4) assigned
to an edge is monotone in the edge frequency and never below the minimum
visible width 1. -/
theorem C9_lineWeight_monotone (f1 f2 : Nat) (h : f1 ≤ f2) :
    lineWeight f1 ≤ lineWeight f2 ∧ 1 ≤ lineWeight f1 := by
  constructor
  · unfold lineWeight
    gcongr
  · exact le_max_left 1 _

/-- Witness: the line-weight theorem applied at frequencies 2 and 8. -/
theorem C9_witness :
    (2 : Nat) ≤ 8 ∧ (lineWeight 2 ≤ lineWeight 8 ∧ 1 ≤ lineWeight 2) :=
  ⟨by norm_num, C9_lineWeight_monotone 2 8 (by norm_num)⟩

/-- C8 counterexample: on an event log with zero cases, the analytics step
yields the raw ZeroDivisionError of the division `total_events / total_cases`,
not a structured precondition outcome. -/
theorem C8_counterexample :
    avg_events_per_case [] = Except.error AnalyticsError.zeroDivisionError := by
  rfl

/-- C8 (amended): with a positive case count the average equals the total
event count divided by the distinct case count (multiplying back by the case
count recovers the event total); with zero cases the code raises an unhandled
ZeroDivisionError rather than reporting a structured outcome. -/
theorem C8_average (log : List EnrichedRow) (h : total_cases log ≠ 0) :
    avg_events_per_case log
        = Except.ok ((total_events log : ℚ) / (total_cases log : ℚ))
      ∧ ((total_events log : ℚ) / (total_cases log : ℚ)) * (total_cases log : ℚ)
        = (total_events log : ℚ) := by
  refine ⟨by simp [avg_events_per_case, h], ?_⟩
  rw [div_mul_cancel₀]
  exact_mod_cast h

/-- Witness: the amended average theorem applied to a one-row log. -/
theorem C8_witness :
    total_cases sampleLog ≠ 0
      ∧ (avg_events_per_case sampleLog
            = Except.ok ((total_events sampleLog : ℚ) / (total_cases sampleLog : ℚ))
          ∧ ((total_events sampleLog : ℚ) / (total_cases sampleLog : ℚ))
              * (total_cases sampleLog : ℚ) = (total_events sampleLog : ℚ)) :=
  ⟨by decide, C8_average sampleLog (by decide)⟩

/-- C7: when a column referenced by the query is absent from the loaded
schema, the statement fails to prepare, so the run returns the fatal
configuration error and produces no event row at all. -/
theorem C7_missing_column_fatal (s : DBSchema) (t : Tables) (h : prepareOk s = false) :
    runEventLogQuery s t = Except.error "no such column" := by
  simp [runEventLogQuery, h]

/-- Witness: a schema missing the declared column PickedDate makes the run
fail with the fatal error. -/
theorem C7_witness :
    prepareOk missingSchema = false
      ∧ runEventLogQuery missingSchema emptyTables = Except.error "no such column" :=
  ⟨by decide, C7_missing_column_fatal missingSchema emptyTables (by decide)⟩

theorem length_le_leftJoin {α β : Type} (f : α → List β) (xs : List α) :
    xs.length ≤ (leftJoin f xs).length := by
  induction xs with
  | nil => simp [leftJoin]
  | cons a xs ih =>
    simp only [leftJoin, List.flatMap_cons, List.length_append, List.length_cons]
    have h1 : 1 ≤ (joinRow a (f a)).length := by
      cases h : f a <;> simp [joinRow]
    have h2 := ih
    simp only [leftJoin] at h2
    omega

/-- C1 (amended): enrichment never drops an event record — each unpivoted
record yields at least one enriched row — but each left join emits one row per
matching satellite row, so a satellite table with several rows for a case
duplicates the event record and the enriched log can be strictly longer than
the unpivoted stream; the join does not pick the first matching row only. -/
theorem C1_enrichment_fanout (t : Tables) :
    (unpivotedEvents t).length ≤ (eventLogQuery t).length := by
  have h1 := length_le_leftJoin
    (fun ue => t.ordertable.filter fun o => o.OrderID == ue.OrderID) (unpivotedEvents t)
  have h2 := length_le_leftJoin (fun p => customerMatches t p.2)
    (joinOrder t (unpivotedEvents t))
  have h3 := length_le_leftJoin
    (fun p => t.shippingtable.filter fun s => s.OrderID == p.1.1.OrderID)
    (joinCustomer t (joinOrder t (unpivotedEvents t)))
  have h4 := length_le_leftJoin
    (fun p => t.supporttable.filter fun sup => sup.OrderID == p.1.1.1.OrderID)
    (joinShipping t (joinCustomer t (joinOrder t (unpivotedEvents t))))
  simp only [eventLogQuery, List.length_mergeSort, joinedEvents, List.length_map]
  simp only [joinSupport, joinShipping, joinCustomer, joinOrder] at *
  omega

/-- C1 counterexample: with two shipping rows for order 1 (their date columns
null, so the unpivot is unaffected), the single unpivoted event record becomes
two rows of the enriched event log — the left join fans out rather than
enriching from the first matching row only. -/
theorem C1_counterexample :
    (unpivotedEvents fanoutTables).length = 1
      ∧ (eventLogQuery fanoutTables).length = 2 := by
  constructor
  · decide
  · show ((joinedEvents fanoutTables).mergeSort sqlLe).length = 2
    rw [List.length_mergeSort]
    decide

/-- C5: in any event log the query produces, two records of the same case
appear with non-decreasing timestamps (the log is sorted by case id, then
timestamp). -/
theorem C5_timestamps_nondecreasing (t : Tables) :
    (eventLogQuery t).Pairwise fun a b =>
      a.OrderID = b.OrderID → a.Timestamp ≤ b.Timestamp := by
  have h := List.sorted_mergeSort sqlLe_trans sqlLe_total (joinedEvents t)
  refine List.Pairwise.imp ?_ h
  intro a b hab heq
  simp only [sqlLe, Bool.or_eq_true, Bool.and_eq_true, decide_eq_true_eq] at hab
  omega

/-- C2: building the event log is deterministic — equal source tables give
identical logs — and the sort is stable, so two enriched records with equal
case id and equal timestamp keep, in the sorted log, the relative order in
which the unpivot scan generated them (originating-column scan order, then
original row order). -/
theorem C2_deterministic_stable_sort :
    (∀ t₁ t₂ : Tables, t₁ = t₂ → eventLogQuery t₁ = eventLogQuery t₂)
      ∧ ∀ (t : Tables) (a b : EnrichedRow), a.OrderID = b.OrderID →
          a.Timestamp = b.Timestamp →
          [a, b].Sublist (joinedEvents t) → [a, b].Sublist (eventLogQuery t) := by
  constructor
  · intro t₁ t₂ h
    rw [h]
  · intro t a b hk ht hs
    have hp : [a, b].Pairwise fun x y => sqlLe x y = true := by
      rw [List.pairwise_pair]
      simp [sqlLe, hk, ht]
    exact List.sublist_mergeSort sqlLe_trans sqlLe_total hp hs

/-- Witness: on `tieTables` the two equal-timestamp records of case 1 keep
their generation order in the sorted log. -/
theorem C2_witness :
    rowA.OrderID = rowB.OrderID ∧ rowA.Timestamp = rowB.Timestamp
      ∧ [rowA, rowB].Sublist (joinedEvents tieTables)
      ∧ [rowA, rowB].Sublist (eventLogQuery tieTables) := by
  have hj : joinedEvents tieTables = [rowA, rowB] := by rfl
  have hs : [rowA, rowB].Sublist (joinedEvents tieTables) := by
    rw [hj]
  exact ⟨rfl, rfl, hs, C2_deterministic_stable_sort.2 tieTables rowA rowB rfl rfl hs⟩

theorem leftJoin_of_unique {α β : Type} (f : α → List β) (xs : List α)
    (h : ∀ a, (f a).length ≤ 1) :
    leftJoin f xs = xs.map fun a => (a, (f a).head?) := by
  induction xs with
  | nil => rfl
  | cons a xs ih =>
    simp only [leftJoin, List.flatMap_cons, List.map_cons] at ih ⊢
    rw [ih]
    have ha := h a
    cases hfa : f a with
    | nil => simp [joinRow]
    | cons b l =>
      rw [hfa] at ha
      simp only [List.length_cons] at ha
      have hl : l = [] := List.length_eq_zero.mp (by omega)
      subst hl
      simp [joinRow]

theorem length_leftJoin_of_unique {α β : Type} (f : α → List β) (xs : List α)
    (h : ∀ a, (f a).length ≤ 1) : (leftJoin f xs).length = xs.length := by
  rw [leftJoin_of_unique f xs h, List.length_map]

theorem length_filter_le_one_of_nodup {ρ : Type} (key : ρ → Nat) (rows : List ρ)
    (h : (rows.map key).Nodup) (k : Nat) :
    (rows.filter fun r => key r == k).length ≤ 1 := by
  induction rows with
  | nil => simp
  | cons r rows ih =>
    simp only [List.map_cons, List.nodup_cons] at h
    obtain ⟨hnotin, hnd⟩ := h
    by_cases hk : key r = k
    · rw [List.filter_cons_of_pos (by simpa using hk)]
      have hnil : (rows.filter fun r => key r == k) = [] := by
        rw [List.filter_eq_nil_iff]
        intro r' hr'
        simp only [beq_iff_eq]
        intro hkr'
        have : key r ∈ rows.map key := by
          rw [hk, ← hkr']
          exact List.mem_map_of_mem key hr'
        exact hnotin this
      rw [hnil]
      simp
    · rw [List.filter_cons_of_neg (by simpa using hk)]
      exact ih hnd

theorem mem_leftJoin {α β : Type} {f : α → List β} {xs : List α} {p : α × Option β}
    (hp : p ∈ leftJoin f xs) :
    p.1 ∈ xs ∧ (p.2 = none ∨ ∃ b ∈ f p.1, p.2 = some b) := by
  simp only [leftJoin, List.mem_flatMap] at hp
  obtain ⟨a, ha, hpj⟩ := hp
  cases hfa : f a with
  | nil =>
    rw [hfa] at hpj
    simp only [joinRow, List.mem_singleton] at hpj
    subst hpj
    exact ⟨ha, Or.inl rfl⟩
  | cons b l =>
    rw [hfa] at hpj
    simp only [joinRow, List.mem_map] at hpj
    obtain ⟨b', hb', rfl⟩ := hpj
    refine ⟨ha, Or.inr ⟨b', ?_, rfl⟩⟩
    rw [hfa]
    exact hb'

/-- C10: when `ordertable`, `shippingtable` and `supporttable` each have at
most one row per OrderID and `customertable` at most one row per CustomerID,
the joins preserve cardinality — the enriched log has exactly one row per
unpivoted record — and an event whose OrderID matches no shipping (resp.
support) row still appears, with that table's attribute columns null. -/
theorem C10_enrichment_preserves_cardinality (t : Tables)
    (h1 : (t.ordertable.map OrderRow.OrderID).Nodup)
    (h2 : (t.shippingtable.map ShippingRow.OrderID).Nodup)
    (h3 : (t.supporttable.map SupportRow.OrderID).Nodup)
    (h4 : (t.customertable.map CustomerRow.CustomerID).Nodup) :
    (eventLogQuery t).length = (unpivotedEvents t).length
      ∧ ∀ r ∈ eventLogQuery t,
          ((t.shippingtable.filter fun s => s.OrderID == r.OrderID) = []
              → r.DeliveryCompany = none ∧ r.ShipmentID = none)
          ∧ ((t.supporttable.filter fun u => u.OrderID == r.OrderID) = []
              → r.TicketID = none ∧ r.SupportTeam = none ∧ r.IssueCategory = none
                ∧ r.CustomerNPS = none) := by
  have hc : ∀ p : UnpivotedEvent × Option OrderRow, (customerMatches t p.2).length ≤ 1 := by
    intro p
    cases hp2 : p.2 with
    | none => simp [customerMatches]
    | some o =>
      cases ho2 : o.CustomerID with
      | none => simp [customerMatches, ho2]
      | some cid =>
        simp only [customerMatches, ho2]
        exact length_filter_le_one_of_nodup CustomerRow.CustomerID t.customertable h4 cid
  constructor
  · simp only [eventLogQuery, List.length_mergeSort, joinedEvents, List.length_map,
      joinSupport, joinShipping, joinCustomer, joinOrder]
    rw [length_leftJoin_of_unique _ _
        (fun p : ((UnpivotedEvent × Option OrderRow) × Option CustomerRow) ×
            Option ShippingRow =>
          length_filter_le_one_of_nodup SupportRow.OrderID t.supporttable h3
            p.1.1.1.OrderID),
      length_leftJoin_of_unique _ _
        (fun p : (UnpivotedEvent × Option OrderRow) × Option CustomerRow =>
          length_filter_le_one_of_nodup ShippingRow.OrderID t.shippingtable h2
            p.1.1.OrderID),
      length_leftJoin_of_unique _ _ hc,
      length_leftJoin_of_unique _ _
        (fun ue : UnpivotedEvent =>
          length_filter_le_one_of_nodup OrderRow.OrderID t.ordertable h1 ue.OrderID)]
  · intro r hr
    have hr' : r ∈ joinedEvents t := List.mem_mergeSort.mp hr
    simp only [joinedEvents, List.mem_map] at hr'
    obtain ⟨q, hq, rfl⟩ := hr'
    have hmem4 := mem_leftJoin (by simpa only [joinSupport] using hq)
    obtain ⟨hq1, hq2⟩ := hmem4
    have hmem3 := mem_leftJoin (by simpa only [joinShipping] using hq1)
    obtain ⟨hq11, hq12⟩ := hmem3
    constructor
    · intro hfil
      simp only [assembleRow] at hfil
      rcases hq12 with hnone | ⟨b, hb, _⟩
      · simp [assembleRow, hnone]
      · rw [hfil] at hb
        simp at hb
    · intro hfil
      simp only [assembleRow] at hfil
      rcases hq2 with hnone | ⟨b, hb, _⟩
      · simp [assembleRow, hnone]
      · rw [hfil] at hb
        simp at hb

/-- Witness: the cardinality theorem applied to `uniqueTables`, whose keys are
unique in every table. -/
theorem C10_witness :
    ((uniqueTables.ordertable.map OrderRow.OrderID).Nodup
        ∧ (uniqueTables.shippingtable.map ShippingRow.OrderID).Nodup
        ∧ (uniqueTables.supporttable.map SupportRow.OrderID).Nodup
        ∧ (uniqueTables.customertable.map CustomerRow.CustomerID).Nodup)
      ∧ ((eventLogQuery uniqueTables).length = (unpivotedEvents uniqueTables).length
          ∧ ∀ r ∈ eventLogQuery uniqueTables,
              ((uniqueTables.shippingtable.filter fun s => s.OrderID == r.OrderID) = []
                  → r.DeliveryCompany = none ∧ r.ShipmentID = none)
              ∧ ((uniqueTables.supporttable.filter fun u => u.OrderID == r.OrderID) = []
                  → r.TicketID = none ∧ r.SupportTeam = none ∧ r.IssueCategory = none
                    ∧ r.CustomerNPS = none)) :=
  ⟨⟨by decide, by decide, by decide, by decide⟩,
    C10_enrichment_preserves_cardinality uniqueTables (by decide) (by decide) (by decide)
      (by decide)⟩

theorem addPairs_apply (ps : List (String × String)) (m : String × String → Nat)
    (x : String × String) : addPairs m ps x = m x + ps.count x := by
  induction ps generalizing m with
  | nil => simp [addPairs]
  | cons p ps ih =>
    rw [addPairs, ih, List.count_cons]
    by_cases h : x = p
    · subst h
      simp [bump]
      omega
    · simp [bump, h, Ne.symm h]

theorem addTrace_edges (d : DFG) (es : List String) (p : String × String) :
    (addTrace d es).edges p = d.edges p + (consecutivePairs es).count p := by
  cases es with
  | nil => simp [addTrace, consecutivePairs]
  | cons e0 rest => simp [addTrace, addPairs_apply]

theorem addTrace_start (d : DFG) (es : List String) (a : String) :
    (addTrace d es).start_activities a
      = d.start_activities a + if es.head? = some a then 1 else 0 := by
  cases es with
  | nil => simp [addTrace]
  | cons e0 rest =>
    show bump d.start_activities e0 a
      = d.start_activities a + if (e0 :: rest).head? = some a then 1 else 0
    rw [List.head?_cons]
    rcases eq_or_ne a e0 with h | h
    · subst h
      simp [bump]
    · simp [bump, h, Ne.symm h]

theorem getLast?_cons_eq_getLastD (e0 : String) (rest : List String) :
    (e0 :: rest).getLast? = some (rest.getLastD e0) := by
  induction rest generalizing e0 with
  | nil => rfl
  | cons b l ih =>
    rw [List.getLast?_cons_cons, ih b, List.getLastD_cons]

theorem addTrace_end (d : DFG) (es : List String) (a : String) :
    (addTrace d es).end_activities a
      = d.end_activities a + if es.getLast? = some a then 1 else 0 := by
  cases es with
  | nil => simp [addTrace]
  | cons e0 rest =>
    show bump d.end_activities (rest.getLastD e0) a
      = d.end_activities a + if (e0 :: rest).getLast? = some a then 1 else 0
    rw [getLast?_cons_eq_getLastD]
    rcases eq_or_ne a (rest.getLastD e0) with h | h
    · subst h
      simp [bump]
    · rw [List.getLastD_eq_getLast?] at h
      simp [bump, h, Ne.symm h]

theorem foldl_addTrace_edges (g : Nat → List String) (cs : List Nat) (d : DFG)
    (p : String × String) :
    (cs.foldl (fun d c => addTrace d (g c)) d).edges p
      = d.edges p + (cs.map fun c => (consecutivePairs (g c)).count p).sum := by
  induction cs generalizing d with
  | nil => simp
  | cons c cs ih =>
    rw [List.foldl_cons, ih, addTrace_edges, List.map_cons, List.sum_cons]
    omega

theorem foldl_addTrace_start (g : Nat → List String) (cs : List Nat) (d : DFG) (a : String) :
    (cs.foldl (fun d c => addTrace d (g c)) d).start_activities a
      = d.start_activities a + cs.countP fun c => (g c).head? == some a := by
  induction cs generalizing d with
  | nil => simp
  | cons c cs ih =>
    rw [List.foldl_cons, ih, addTrace_start, List.countP_cons]
    by_cases h : (g c).head? = some a
    · simp only [h, if_pos, beq_self_eq_true, if_true]
      omega
    · simp [h]

theorem foldl_addTrace_end (g : Nat → List String) (cs : List Nat) (d : DFG) (a : String) :
    (cs.foldl (fun d c => addTrace d (g c)) d).end_activities a
      = d.end_activities a + cs.countP fun c => (g c).getLast? == some a := by
  induction cs generalizing d with
  | nil => simp
  | cons c cs ih =>
    rw [List.foldl_cons, ih, addTrace_end, List.countP_cons]
    by_cases h : (g c).getLast? = some a
    · simp only [h, if_pos, beq_self_eq_true, if_true]
      omega
    · simp [h]

/-- C3 (DFG discoverer, modelled from the spec): for every log, the start
count of an activity equals the number of cases whose trace begins with it,
the end count the number of cases whose trace ends with it, and each edge
count the number of occurrences of that consecutive pair across all case
traces — self-loop pairs being counted exactly the same way — while a
single-event trace contributes no consecutive pair and has its one activity
as both first and last element. -/
theorem C3_dfg_per_case_counts (log : List (Nat × String)) :
    (∀ a, (discoverDfg log).start_activities a
        = (caseIds log).countP fun c => (caseTrace log c).head? == some a)
      ∧ (∀ a, (discoverDfg log).end_activities a
          = (caseIds log).countP fun c => (caseTrace log c).getLast? == some a)
      ∧ (∀ p, (discoverDfg log).edges p
          = ((caseIds log).map fun c => (consecutivePairs (caseTrace log c)).count p).sum)
      ∧ ∀ a : String, consecutivePairs [a] = []
          ∧ [a].head? = some a ∧ [a].getLast? = some a := by
  refine ⟨?_, ?_, ?_, ?_⟩
  · intro a
    rw [discoverDfg, foldl_addTrace_start]
    simp [emptyDFG]
  · intro a
    rw [discoverDfg, foldl_addTrace_end]
    simp [emptyDFG]
  · intro p
    rw [discoverDfg, foldl_addTrace_edges]
    simp [emptyDFG]
  · intro a
    exact ⟨rfl, rfl, rfl⟩

theorem count_beq_eq (x : String × String) (l : List (String × String)) :
    @List.count (String × String) instBEqProd x l
      = @List.count (String × String) instBEqOfDecidableEq x l := by
  induction l with
  | nil => rfl
  | cons y l ih =>
    have h1 : (@BEq.beq (String × String) instBEqProd y x) = decide (y = x) :=
      Bool.beq_eq_decide_eq y x
    have h2 : (@BEq.beq (String × String) instBEqOfDecidableEq y x) = decide (y = x) := rfl
    rw [@List.count_cons (String × String) instBEqProd,
      @List.count_cons (String × String) instBEqOfDecidableEq, ih, h1, h2]

theorem count_flatMap (cs : List Nat) (g : Nat → List (String × String))
    (p : String × String) :
    (cs.flatMap g).count p = (cs.map fun c => (g c).count p).sum := by
  induction cs with
  | nil => simp
  | cons c cs ih => simp [List.flatMap_cons, List.count_append, ih]

theorem length_flatMap_traces (cs : List Nat) (g : Nat → List (String × String)) :
    (cs.flatMap g).length = (cs.map fun c => (g c).length).sum := by
  induction cs with
  | nil => simp
  | cons c cs ih => simp [List.flatMap_cons, ih]

theorem length_consecutivePairs (es : List String) :
    (consecutivePairs es).length = es.length - 1 := by
  induction es with
  | nil => rfl
  | cons a rest ih =>
    cases rest with
    | nil => rfl
    | cons b l =>
      show ((a, b) :: consecutivePairs (b :: l)).length = (a :: b :: l).length - 1
      rw [List.length_cons, ih]
      simp

theorem length_le_sum_map (cs : List Nat) (f : Nat → Nat) (h : ∀ c ∈ cs, 1 ≤ f c) :
    cs.length ≤ (cs.map f).sum := by
  induction cs with
  | nil => simp
  | cons c cs ih =>
    simp only [List.map_cons, List.sum_cons, List.length_cons]
    have hc := h c (List.mem_cons_self c cs)
    have := ih fun x hx => h x (List.mem_cons_of_mem c hx)
    omega

theorem sum_map_sub_one (cs : List Nat) (f : Nat → Nat) (h : ∀ c ∈ cs, 1 ≤ f c) :
    (cs.map fun c => f c - 1).sum = (cs.map f).sum - cs.length := by
  induction cs with
  | nil => simp
  | cons c cs ih =>
    simp only [List.map_cons, List.sum_cons, List.length_cons]
    have hc := h c (List.mem_cons_self c cs)
    have hrest : ∀ x ∈ cs, 1 ≤ f x := fun x hx => h x (List.mem_cons_of_mem c hx)
    have hlen := length_le_sum_map cs f hrest
    rw [ih hrest]
    omega

theorem caseTrace_length_eq_count (log : List (Nat × String)) (c : Nat) :
    (caseTrace log c).length = (log.map Prod.fst).count c := by
  rw [caseTrace, List.length_map, ← List.countP_eq_length_filter, List.count_eq_countP,
    List.countP_map]
  rfl

theorem sum_caseTrace_lengths (log : List (Nat × String)) :
    ((caseIds log).map fun c => (caseTrace log c).length).sum = log.length := by
  rw [List.map_congr_left fun c _ => caseTrace_length_eq_count log c, caseIds]
  rw [List.sum_map_count_dedup_eq_length, List.length_map]

theorem caseTrace_ne_nil_of_mem (log : List (Nat × String)) (c : Nat)
    (hc : c ∈ caseIds log) : caseTrace log c ≠ [] := by
  rw [caseIds, List.mem_dedup] at hc
  obtain ⟨e, he, hfst⟩ := List.mem_map.mp hc
  have hmem : e ∈ log.filter fun x => x.1 == c :=
    List.mem_filter.mpr ⟨he, by simp [hfst]⟩
  rw [caseTrace]
  exact fun hnil => (List.ne_nil_of_mem (List.mem_map_of_mem Prod.snd hmem)) hnil

theorem casesWithEvents_eq_length (log : List (Nat × String)) :
    casesWithEvents log = (caseIds log).length := by
  rw [casesWithEvents]
  congr 1
  apply List.filter_eq_self.mpr
  intro c hc
  simp [List.isEmpty_eq_false, caseTrace_ne_nil_of_mem log c hc]

/-- C4 (DFG discoverer, modelled from the spec): the edge counts summed over
the edge support equal the total number of events minus the number of cases
with at least one event — each case of length n contributes exactly n-1
edges. -/
theorem C4_edge_count_sum (log : List (Nat × String)) :
    sumEdgeValues log = log.length - casesWithEvents log := by
  have hedge : ∀ p, (discoverDfg log).edges p = (allPairs log).count p := by
    intro p
    rw [discoverDfg, foldl_addTrace_edges, allPairs, count_flatMap]
    simp [emptyDFG]
  have h1 : sumEdgeValues log = (allPairs log).length := by
    rw [sumEdgeValues, List.map_congr_left fun p _ => hedge p,
      List.map_congr_left fun p _ => count_beq_eq p (allPairs log)]
    exact List.sum_map_count_dedup_eq_length (allPairs log)
  have h2 : (allPairs log).length
      = ((caseIds log).map fun c => (caseTrace log c).length - 1).sum := by
    rw [allPairs, length_flatMap_traces]
    congr 1
    exact List.map_congr_left fun c _ => length_consecutivePairs _
  have h3 : ∀ c ∈ caseIds log, 1 ≤ (caseTrace log c).length := by
    intro c hc
    have := caseTrace_ne_nil_of_mem log c hc
    cases htr : caseTrace log c with
    | nil => exact absurd htr this
    | cons x xs => simp [htr]
  rw [h1, h2, sum_map_sub_one _ _ h3, sum_caseTrace_lengths, casesWithEvents_eq_length]

end ProcessMining
